import Mathlib

/-!
Verification of DouyinHelper (PhanDo19/DouyinHelper) against its
natural-language specification.

The Python sources `youtube_uploader.py` and `douyin_youtube_tool.py` are
shallowly embedded below.  Strings are modelled as `List Char` where
character-level behaviour matters (Python slicing, `str.replace`) and as
`String` elsewhere; Python dicts with a known key set become structures
with `Option` fields for keys that may be absent; network transports are
modelled as explicit traces or functions supplied as parameters; the file
system is a list of existing paths.
-/

namespace DouyinHelper

/-! ## Metadata truncation (`YouTubeUploader.upload_video`, youtube_uploader.py)

Python:
  if len(title) > 100: title = title[:97] + "..."
  if len(description) > 5000: description = description[:4997] + "..."
-/

def truncate_title (title : List Char) : List Char :=
  if title.length > 100 then title.take 97 ++ "...".toList else title

def truncate_description (description : List Char) : List Char :=
  if description.length > 5000 then description.take 4997 ++ "...".toList else description

/-! ## Upload preconditions (`YouTubeUploader.upload_video`, youtube_uploader.py)

Python (the three guards at the top of `upload_video`):
  if not self.youtube: raise Exception("Not authenticated! Call authenticate() first.")
  if not os.path.exists(video_file): raise FileNotFoundError(f"Video file '{video_file}' not found!")
  file_size = os.path.getsize(video_file)
  if file_size > 256 * 1024 * 1024 * 1024: raise Exception(...)

A raised exception is modelled as `Except.error`; passing all three guards
(after which the function builds the request body and uploads) is `Except.ok`.
The "file too large" message interpolates a float-formatted GB figure, which
is not modelled; the error constructor records which guard fired.
-/

inductive UploadPrecondError where
  | notAuthenticated (msg : String)
  | fileNotFound (msg : String)
  | fileTooLarge
  deriving DecidableEq, Repr

def upload_video_checks (authenticated : Bool) (fileExists : Bool)
    (video_file : String) (fileSize : Nat) : Except UploadPrecondError Unit :=
  if !authenticated then
    .error (.notAuthenticated "Not authenticated! Call authenticate() first.")
  else if !fileExists then
    .error (.fileNotFound ("Video file '" ++ video_file ++ "' not found!"))
  else if fileSize > 256 * 1024 * 1024 * 1024 then
    .error .fileTooLarge
  else
    .ok ()


/-! ## Resumable upload (`YouTubeUploader._resumable_upload`, youtube_uploader.py)

The transport is modelled as a trace: each call to
`insert_request.next_chunk()` consumes one `ChunkEvent`.
  * `.progress`          — next_chunk returned `(status, None)`: the loop continues;
  * `.complete resp`     — next_chunk returned a non-None response dict;
  * `.httpError s msg`   — next_chunk raised `HttpError` with HTTP status `s`
                           whose string form is `msg`;
  * `.exn msg`           — next_chunk raised some other exception printing as `msg`.

The follow-up `self.youtube.videos().list(...)` query on the obtained video id
is modelled by `statusQuery`:
  * `.raises msg` — the query raised an exception printing as `msg`;
  * `.noItems`    — the query succeeded but `video_info['items']` was empty;
  * `.found p u pr` — the query succeeded; `p`, `u`, `pr` are the
    processing/upload/privacy statuses read out of the first item (the Python
    `.get(..., 'unknown')` defaulting happens before these strings are formed).

The returned Python dict is `UploadResult`; `Option` fields model keys that a
given return site omits.  `resumableUploadRun` returns the result (or `none`
if the trace was exhausted while the loop was still waiting for a response)
together with the number of next_chunk calls made. -/

structure UploadResponse where
  id? : Option String
  repr : String
  deriving DecidableEq, Repr

inductive ChunkEvent where
  | progress
  | complete (resp : UploadResponse)
  | httpError (status : Nat) (msg : String)
  | exn (msg : String)
  deriving DecidableEq, Repr

inductive StatusQueryOutcome where
  | raises (msg : String)
  | noItems
  | found (processing upload privacy : String)
  deriving DecidableEq, Repr

structure UploadResult where
  success : Bool
  video_id : Option String := none
  url : Option String := none
  error : Option String := none
  warning : Option String := none
  processing_status : Option String := none
  upload_status : Option String := none
  privacy_status : Option String := none
  deriving DecidableEq, Repr

def completionResult (statusQuery : String → StatusQueryOutcome)
    (resp : UploadResponse) : UploadResult :=
  match resp.id? with
  | some vid =>
    let video_url := "https://www.youtube.com/watch?v=" ++ vid
    match statusQuery vid with
    | .found p u pr =>
      { success := true, video_id := some vid, url := some video_url,
        processing_status := some p, upload_status := some u,
        privacy_status := some pr }
    | .noItems =>
      { success := false,
        error := some "Video uploaded but not found in channel. May need processing time." }
    | .raises msg =>
      { success := true, video_id := some vid, url := some video_url,
        processing_status := some "unknown", upload_status := some "uploaded",
        privacy_status := some "unknown",
        warning := some ("Could not get video details: " ++ msg) }
  | none =>
    { success := false, error := some ("Upload failed: " ++ resp.repr) }

def retriableStatus (s : Nat) : Bool :=
  s = 500 ∨ s = 502 ∨ s = 503 ∨ s = 504

def resumableUploadRun (statusQuery : String → StatusQueryOutcome) :
    List ChunkEvent → Nat → Option UploadResult × Nat
  | [], _ => (none, 0)
  | .progress :: rest, retry =>
    let p := resumableUploadRun statusQuery rest retry
    (p.1, p.2 + 1)
  | .complete resp :: _, _ => (some (completionResult statusQuery resp), 1)
  | .httpError s msg :: rest, retry =>
    if retriableStatus s then
      if retry + 1 > 5 then
        (some { success := false, error := some ("Max retries exceeded: " ++ msg) }, 1)
      else
        let p := resumableUploadRun statusQuery rest (retry + 1)
        (p.1, p.2 + 1)
    else
      (some { success := false, error := some ("HTTP Error: " ++ msg) }, 1)
  | .exn msg :: _, _ =>
    (some { success := false, error := some ("Unexpected error: " ++ msg) }, 1)

/-- The result `_resumable_upload` returns for an always-503 transport. -/
def maxRetriesResult (msg : String) : UploadResult :=
  { success := false, error := some ("Max retries exceeded: " ++ msg) }

/-! ## Douyin feed items (`DouyinYouTubeTool.extract_video_url`, douyin_youtube_tool.py)

A feed item is a JSON dict; the function only looks at
`video_data['video']['play_addr']['url_list']`, each level guarded by an `in`
check, so each level is an `Option` field.  URLs are `List Char` because the
function uses Python `str.replace`, which rewrites every occurrence of the
pattern, and `str.startswith`. -/

structure PlayAddr where
  url_list? : Option (List (List Char))
  deriving Repr

structure VideoField where
  play_addr? : Option PlayAddr
  deriving Repr

structure AwemeItem where
  video? : Option VideoField
  deriving Repr

/-- Python `url.replace('http', 'https')`: every non-overlapping occurrence of
`"http"`, scanned left to right, is replaced by `"https"`. -/
def replaceHttp : List Char → List Char
  | 'h' :: 't' :: 't' :: 'p' :: rest => 'h' :: 't' :: 't' :: 'p' :: 's' :: replaceHttp rest
  | c :: rest => c :: replaceHttp rest
  | [] => []

/-- Python `url.startswith('https')`. -/
def startsWithHttps : List Char → Bool
  | 'h' :: 't' :: 't' :: 'p' :: 's' :: _ => true
  | _ => false

/-- Whether `"http"` occurs as a substring (used to state when `replaceHttp`
leaves a string unchanged). -/
def containsHttp : List Char → Bool
  | 'h' :: 't' :: 't' :: 'p' :: _ => true
  | _ :: rest => containsHttp rest
  | [] => false

def extract_video_url (video_data : AwemeItem) : Option (List Char) :=
  match video_data.video? with
  | none => none
  | some video_info =>
    match video_info.play_addr? with
    | none => none
    | some pa =>
      match pa.url_list? with
      | none => none
      | some [] => none
      | some (url :: _) =>
        some (if startsWithHttps url then url else replaceHttp url)

/-! ## Feed pagination (`DouyinYouTubeTool.analyze_url`, douyin_youtube_tool.py)

The fetch loop:
  max_cursor = 0; page = 1
  while page <= 5:
      data = self.fetch_api_data(url-with-max_cursor)
      if not data: break
      if 'aweme_list' not in data: break
      ... append extract_video_url(video) for each video, skipping None ...
      if not has_more: break
      page += 1

`fetch` maps a cursor value to the parsed response (`none` models both a
failed fetch and a falsy/empty response).  `analyzeLoop` returns the number of
fetch calls made together with the accumulated video-URL list. -/

structure ApiResponse where
  aweme_list? : Option (List AwemeItem)
  has_more : Bool
  max_cursor : Nat

def analyzeLoop (fetch : Nat → Option ApiResponse)
    (extract : AwemeItem → Option (List Char))
    (page cursor : Nat) (acc : List (List Char)) : Nat × List (List Char) :=
  if _hpage : page ≤ 5 then
    match fetch cursor with
    | none => (1, acc)
    | some data =>
      match data.aweme_list? with
      | none => (1, acc)
      | some lst =>
        let acc2 := acc ++ lst.filterMap extract
        if data.has_more then
          let p := analyzeLoop fetch extract (page + 1) data.max_cursor acc2
          (p.1 + 1, p.2)
        else (1, acc2)
  else (0, acc)
termination_by 6 - page
decreasing_by omega

/-- The whole `analyze_url` fetch phase: page counter starts at 1, cursor at 0,
no URLs collected yet. -/
def analyze_url_pages (fetch : Nat → Option ApiResponse)
    (extract : AwemeItem → Option (List Char)) : Nat × List (List Char) :=
  analyzeLoop fetch extract 1 0 []

/-! ## Batch download (`DouyinYouTubeTool.download_videos` /
`download_single_video`, douyin_youtube_tool.py)

`download_single_video` issues one request for item `i` and returns True only
when the response status is 200 and the file write succeeds; any exception is
caught, logged and turned into False; a non-200 status falls through to
`return False`.  The transport for item `i` is modelled by `transport i`:
  * `.ok status`  — `urlopen` succeeded with that HTTP status and, when the
                    status is 200, the file write also succeeded;
  * `.raises msg` — the request, `urlopen` or the write raised.

`download_videos` walks `video_urls` with `enumerate`, counts successes and
failures, and records a per-item outcome (the tree-row status update).  The
model returns `(successful, failed, outcomes)` where `outcomes` lists
`(index, succeeded?)` in traversal order. -/

inductive TransportOutcome where
  | ok (status : Nat)
  | raises (msg : String)
  deriving DecidableEq, Repr

def download_single_video (t : TransportOutcome) : Bool :=
  match t with
  | .ok status => status == 200
  | .raises _ => false

def downloadLoop (transport : Nat → TransportOutcome) :
    List String → Nat → Nat × Nat × List (Nat × Bool)
  | [], _ => (0, 0, [])
  | _url :: rest, i =>
    let ok := download_single_video (transport i)
    let r := downloadLoop transport rest (i + 1)
    if ok then (r.1 + 1, r.2.1, (i, true) :: r.2.2)
    else (r.1, r.2.1 + 1, (i, false) :: r.2.2)

def download_videos (transport : Nat → TransportOutcome) (video_urls : List String) :
    Nat × Nat × List (Nat × Bool) :=
  downloadLoop transport video_urls 0

/-! ## Today's uploads (`YouTubeUploader.get_todays_uploads`, youtube_uploader.py)

The function requests one page of the channel's uploads playlist with
`maxResults=50` and walks `playlist_response['items']`:
  * `total_checked` is incremented for every entry walked;
  * an entry whose `publishedAt` cannot be parsed is skipped (`continue`);
  * an entry published inside `[today_start, today_end]` is resolved with the
    per-video resolver `check_video_status(video_id)` and collected when that
    resolver reports success;
  * an entry published before `today_start` stops the walk (`break`);
  * an entry published after `today_end` is walked past without resolving.

Timestamps are modelled as `Int` (seconds); `publishedAt? = none` models an
unparseable `publishedAt` string.  The resolver returns `none` when
`check_video_status` reports failure.  `todaysWalk` returns
`(total_checked, resolver call list in order, collected videos)`. -/

structure VideoStatusInfo where
  title : String
  privacy_status : String
  upload_status : String
  processing_status : String
  deriving Repr

structure PlaylistEntry where
  videoId : String
  publishedAt? : Option Int
  deriving Repr

def todaysWalk (resolver : String → Option VideoStatusInfo) (todayStart todayEnd : Int) :
    List PlaylistEntry → Nat × List String × List (String × VideoStatusInfo)
  | [] => (0, [], [])
  | e :: rest =>
    match e.publishedAt? with
    | none =>
      let r := todaysWalk resolver todayStart todayEnd rest
      (r.1 + 1, r.2.1, r.2.2)
    | some p =>
      if todayStart ≤ p ∧ p ≤ todayEnd then
        let r := todaysWalk resolver todayStart todayEnd rest
        match resolver e.videoId with
        | some info => (r.1 + 1, e.videoId :: r.2.1, (e.videoId, info) :: r.2.2)
        | none => (r.1 + 1, e.videoId :: r.2.1, r.2.2)
      else if p < todayStart then
        (1, [], [])
      else
        let r := todaysWalk resolver todayStart todayEnd rest
        (r.1 + 1, r.2.1, r.2.2)

/-! ## Upload-candidate path resolution (douyin_youtube_tool.py)

Three places resolve a candidate filename to an existing file:
  * `get_full_video_path`: current video folder, then download folder, then
    the filename as an absolute path;
  * the inline resolver in `upload_selected_videos`: the same three steps;
  * the inline resolver in `upload_as_shorts_thread`: current video folder
    (only if that folder itself exists), then download folder, then the
    common locations `~/Downloads`, `~/Videos` and `"."` — with no separate
    absolute-path step.

The file system is the list of existing paths.  `os.path.join(a, b)` follows
the POSIX rule the tool relies on: an absolute second argument replaces the
first; otherwise the parts are joined with a separator (folders are assumed
not to end in a slash).  `current_video_folder = none` models the attribute
being unset or empty.  A `none` result models the candidate being skipped and
reported with a log line by the caller. -/

abbrev FileSystem := List String

def path_exists (fs : FileSystem) (p : String) : Bool := fs.contains p

/-- Python `os.path.isabs` on POSIX paths. -/
def isAbs (p : String) : Bool :=
  match p.toList with
  | '/' :: _ => true
  | _ => false

/-- Python `os.path.join(folder, name)` (POSIX, folder without trailing
slash). -/
def joinPath (folder name : String) : String :=
  if isAbs name then name else folder ++ "/" ++ name

/-- First existing path among the candidates (the `for folder in [...]` loop
with `break`). -/
def firstExisting (fs : FileSystem) : List String → Option String
  | [] => none
  | p :: rest => if path_exists fs p then some p else firstExisting fs rest

/-- `DouyinYouTubeTool.get_full_video_path`. -/
def get_full_video_path (fs : FileSystem) (current_video_folder : Option String)
    (download_folder file_name : String) : Option String :=
  match current_video_folder with
  | some cf =>
    if path_exists fs (joinPath cf file_name) then some (joinPath cf file_name)
    else if path_exists fs (joinPath download_folder file_name) then
      some (joinPath download_folder file_name)
    else if isAbs file_name && path_exists fs file_name then some file_name
    else none
  | none =>
    if path_exists fs (joinPath download_folder file_name) then
      some (joinPath download_folder file_name)
    else if isAbs file_name && path_exists fs file_name then some file_name
    else none

/-- The inline per-item resolver of `DouyinYouTubeTool.upload_selected_videos`
(current folder, then download folder, then absolute path). -/
def upload_selected_resolve (fs : FileSystem) (current_video_folder : Option String)
    (download_folder file_name : String) : Option String :=
  match current_video_folder with
  | some cf =>
    if path_exists fs (joinPath cf file_name) then some (joinPath cf file_name)
    else if path_exists fs (joinPath download_folder file_name) then
      some (joinPath download_folder file_name)
    else if isAbs file_name && path_exists fs file_name then some file_name
    else none
  | none =>
    if path_exists fs (joinPath download_folder file_name) then
      some (joinPath download_folder file_name)
    else if isAbs file_name && path_exists fs file_name then some file_name
    else none

/-- The inline per-item resolver of `DouyinYouTubeTool.upload_as_shorts_thread`
(current folder when it exists, then download folder, then the common
locations `~/Downloads`, `~/Videos`, `"."`). -/
def shorts_resolve (fs : FileSystem) (current_video_folder : Option String)
    (download_folder home file_name : String) : Option String :=
  let fromCurrent : Option String :=
    match current_video_folder with
    | some cf =>
      if path_exists fs cf && path_exists fs (joinPath cf file_name) then
        some (joinPath cf file_name)
      else none
    | none => none
  match fromCurrent with
  | some p => some p
  | none =>
    if path_exists fs (joinPath download_folder file_name) then
      some (joinPath download_folder file_name)
    else
      firstExisting fs
        [joinPath (home ++ "/Downloads") file_name,
         joinPath (home ++ "/Videos") file_name,
         joinPath "." file_name]

/-- Modelled from the spec: the claimed resolution order — explicitly chosen
folder, then the download folder, then well-known user folders, then the
filename interpreted as an absolute path — returning the first existing path.
No single resolver in the source implements this order; this definition
exists to compare the claim against the code. -/
def resolve_per_claim (fs : FileSystem) (current_video_folder : Option String)
    (download_folder home file_name : String) : Option String :=
  firstExisting fs
    ((match current_video_folder with
      | some cf => [joinPath cf file_name]
      | none => []) ++
     [joinPath download_folder file_name,
      joinPath (home ++ "/Downloads") file_name,
      joinPath (home ++ "/Videos") file_name] ++
     (if isAbs file_name then [file_name] else []))

/-! ## cURL parsing (`DouyinYouTubeTool.parse_curl`, douyin_youtube_tool.py)

URL extraction embeds the two regex searches character by character:
`re.search(r"curl ['\"]([^'\"]+)['\"]", s)` (leftmost match: the literal
`curl ` and a quote, then a maximal non-empty run of non-quote characters,
then a closing quote — either quote kind on either side) with the fallback
`re.search(r"curl ([^\s]+)", s)`.

The header dict is built from the `re.findall(r"-H ['\"]([^:]+):\s*([^'\"]+)['\"]", ...)`
matches in order (`headers[name] = value`, Python dicts keep the original
insertion position on overwrite) and then the optional `-b '...'` match is
written to `headers['Cookie']`; the match lists are the inputs of
`parse_curl_headers`. -/

def isQuote (c : Char) : Bool := c = '\'' ∨ c = '"'

/-- `re.match` of `curl ['\"]([^'\"]+)['\"]` at the head of the string. -/
def matchQuotedAt : List Char → Option (List Char)
  | 'c' :: 'u' :: 'r' :: 'l' :: ' ' :: q :: rest =>
    if isQuote q then
      let u := rest.takeWhile (fun c => !isQuote c)
      if u ≠ [] ∧ rest.drop u.length ≠ [] then some u else none
    else none
  | _ => none

/-- `re.search` of the quoted-URL pattern: leftmost position that matches. -/
def searchQuoted : List Char → Option (List Char)
  | [] => none
  | c :: rest =>
    match matchQuotedAt (c :: rest) with
    | some u => some u
    | none => searchQuoted rest

/-- `re.match` of the fallback pattern `curl ([^\s]+)` at the head. -/
def matchUnquotedAt : List Char → Option (List Char)
  | 'c' :: 'u' :: 'r' :: 'l' :: ' ' :: rest =>
    let u := rest.takeWhile (fun c => !c.isWhitespace)
    if u ≠ [] then some u else none
  | _ => none

def searchUnquoted : List Char → Option (List Char)
  | [] => none
  | c :: rest =>
    match matchUnquotedAt (c :: rest) with
    | some u => some u
    | none => searchUnquoted rest

/-- The URL `parse_curl` extracts: the quoted pattern first, then the
fallback. -/
def extract_curl_url (s : List Char) : Option (List Char) :=
  match searchQuoted s with
  | some u => some u
  | none => searchUnquoted s

/-- Python `headers[name] = value` on an insertion-ordered dict: overwriting
keeps the key's original position, a new key is appended. -/
def dictInsert (d : List (String × String)) (k v : String) : List (String × String) :=
  if d.any (fun kv => kv.1 == k) then
    d.map (fun kv => if kv.1 == k then (k, v) else kv)
  else d ++ [(k, v)]

/-- The header-building phase of `parse_curl`: fold the `-H` matches into the
dict in order, then write the `-b` match (when present) to `Cookie`. -/
def parse_curl_headers (hmatches : List (String × String)) (bmatch : Option String) :
    List (String × String) :=
  let headers := hmatches.foldl (fun d kv => dictInsert d kv.1 kv.2) []
  match bmatch with
  | some cookie => dictInsert headers "Cookie" cookie
  | none => headers

/-- Dict lookup (`headers[k]`). -/
def lookupHeader (d : List (String × String)) (k : String) : Option String :=
  (d.find? (fun kv => kv.1 == k)).map (fun kv => kv.2)

/-- C1, counterexample.  The claim says a transport that always returns 503
makes the upload fail after exactly 5 attempts, and that any 5xx status is
retried.  On the code: after 5 next_chunk calls that each raised 503 the loop
is still retrying (no result yet); the failure is reported on the 6th call;
and the 5xx status 501 is not retried at all — it aborts on the first call
with an "HTTP Error" result. -/
theorem resumable_upload_five_attempts_counterexample :
    (resumableUploadRun (fun _ => .noItems)
      (List.replicate 5 (.httpError 503 "e")) 0).1 = none ∧
    resumableUploadRun (fun _ => .noItems)
      (List.replicate 6 (.httpError 503 "e")) 0 = (some (maxRetriesResult "e"), 6) ∧
    resumableUploadRun (fun _ => .noItems) [.httpError 501 "e"] 0 =
      (some { success := false, error := some ("HTTP Error: " ++ "e") }, 1) := by
  refine ⟨rfl, rfl, rfl⟩

/-- C1, amended: the retriable statuses are exactly 500, 502, 503 and 504 (not
every 5xx); on such an error the loop sleeps `2 ** retry` seconds and retries,
allowing up to 5 retries, i.e. 6 next_chunk attempts in total; a transport that
always raises 503 produces a "Max retries exceeded" failure after exactly 6
attempts; a non-retriable HTTP error aborts on the spot with the original
message preserved in an "HTTP Error" result, and any other exception aborts on
the spot with the message preserved in an "Unexpected error" result. -/
theorem resumable_upload_retry_amended (q : String → StatusQueryOutcome) (msg : String) :
    (∀ s, retriableStatus s = true ↔ (s = 500 ∨ s = 502 ∨ s = 503 ∨ s = 504)) ∧
    (∀ n, 6 ≤ n →
      resumableUploadRun q (List.replicate n (.httpError 503 msg)) 0 =
        (some (maxRetriesResult msg), 6)) ∧
    (∀ s m rest retry, retriableStatus s = false →
      resumableUploadRun q (ChunkEvent.httpError s m :: rest) retry =
        (some { success := false, error := some ("HTTP Error: " ++ m) }, 1)) ∧
    (∀ m rest retry,
      resumableUploadRun q (ChunkEvent.exn m :: rest) retry =
        (some { success := false, error := some ("Unexpected error: " ++ m) }, 1)) := by
  refine ⟨?_, ?_, ?_, ?_⟩
  · intro s
    simp [retriableStatus]
  · have base : ∀ rest,
        resumableUploadRun q (List.replicate 6 (.httpError 503 msg) ++ rest) 0 =
          (some (maxRetriesResult msg), 6) := by
      intro rest
      rfl
    intro n hn
    obtain ⟨k, rfl⟩ : ∃ k, n = 6 + k := ⟨n - 6, by omega⟩
    rw [List.replicate_add]
    exact base _
  · intro s m rest retry h
    rw [resumableUploadRun, if_neg (by simp [h])]
  · intro m rest retry
    rfl

/-- Witness for C1 (amended) at concrete inputs: 503 is retriable, an
always-503 trace of length 7 fails after exactly 6 attempts, and 501 aborts
immediately. -/
theorem resumable_upload_retry_amended_witness :
    retriableStatus 503 = true ∧
    resumableUploadRun (fun _ => .noItems)
      (List.replicate 7 (.httpError 503 "boom")) 0 = (some (maxRetriesResult "boom"), 6) ∧
    resumableUploadRun (fun _ => .noItems) [.httpError 501 "boom", .progress] 0 =
      (some { success := false, error := some ("HTTP Error: " ++ "boom") }, 1) := by
  refine ⟨?_, ?_, ?_⟩
  · exact ((resumable_upload_retry_amended (fun _ => .noItems) "boom").1 503).2 (by omega)
  · exact (resumable_upload_retry_amended (fun _ => .noItems) "boom").2.1 7 (by omega)
  · exact (resumable_upload_retry_amended (fun _ => .noItems) "boom").2.2.1
      501 "boom" [.progress] 0 (by decide)

/-- C8: (a) when a chunk completes with a remote video id and the follow-up
status query raises, `_resumable_upload` still returns a success result
carrying the video id and the canonical watch URL, with a warning that the
details could not be fetched; (b) every result the loop returns is structured:
a success result always carries a video id and the canonical watch URL, and a
failure result always carries an error message. -/
theorem resumable_upload_warning_and_structured (q : String → StatusQueryOutcome) :
    (∀ vid r m rest retry, q vid = .raises m →
      resumableUploadRun q (ChunkEvent.complete ⟨some vid, r⟩ :: rest) retry =
        (some { success := true, video_id := some vid,
                url := some ("https://www.youtube.com/watch?v=" ++ vid),
                processing_status := some "unknown", upload_status := some "uploaded",
                privacy_status := some "unknown",
                warning := some ("Could not get video details: " ++ m) }, 1)) ∧
    (∀ trace retry res n, resumableUploadRun q trace retry = (some res, n) →
      (res.success = true ∧ ∃ v, res.video_id = some v ∧
        res.url = some ("https://www.youtube.com/watch?v=" ++ v)) ∨
      (res.success = false ∧ res.error ≠ none)) := by
  constructor
  · intro vid r m rest retry h
    rw [resumableUploadRun]
    unfold completionResult
    simp [h]
  · intro trace
    induction trace with
    | nil =>
      intro retry res n h
      simp [resumableUploadRun] at h
    | cons ev rest ih =>
      intro retry res n h
      cases ev with
      | progress =>
        rw [resumableUploadRun] at h
        simp only [Prod.mk.injEq] at h
        obtain ⟨h1, -⟩ := h
        exact ih retry res _ (by rw [← h1])
      | complete resp =>
        rw [resumableUploadRun] at h
        simp only [Prod.mk.injEq] at h
        obtain ⟨h1, -⟩ := h
        obtain rfl : res = completionResult q resp := by
          injection h1 with h1
          exact h1.symm
        unfold completionResult
        cases hid : resp.id? with
        | none => right; simp
        | some vid =>
          cases hq : q vid with
          | raises m => left; simp [hq]
          | noItems => right; simp [hq]
          | found p u pr => left; simp [hq]
      | httpError s m =>
        rw [resumableUploadRun] at h
        by_cases hs : retriableStatus s
        · rw [if_pos hs] at h
          by_cases hr : retry + 1 > 5
          · rw [if_pos hr] at h
            simp only [Prod.mk.injEq] at h
            obtain ⟨h1, -⟩ := h
            injection h1 with h1
            right
            rw [← h1]
            simp
          · rw [if_neg hr] at h
            simp only [Prod.mk.injEq] at h
            obtain ⟨h1, -⟩ := h
            exact ih (retry + 1) res _ (by rw [← h1])
        · rw [if_neg hs] at h
          simp only [Prod.mk.injEq] at h
          obtain ⟨h1, -⟩ := h
          injection h1 with h1
          right
          rw [← h1]
          simp
      | exn m =>
        rw [resumableUploadRun] at h
        simp only [Prod.mk.injEq] at h
        obtain ⟨h1, -⟩ := h
        injection h1 with h1
        right
        rw [← h1]
        simp

/-- Witness for C8 at concrete inputs: a completing chunk whose follow-up
status query raises yields a success result with the id, URL and warning. -/
theorem resumable_upload_warning_and_structured_witness :
    resumableUploadRun (fun _ => .raises "timeout")
      [ChunkEvent.complete ⟨some "abc", "resp"⟩] 0 =
      (some { success := true, video_id := some "abc",
              url := some ("https://www.youtube.com/watch?v=" ++ "abc"),
              processing_status := some "unknown", upload_status := some "uploaded",
              privacy_status := some "unknown",
              warning := some ("Could not get video details: " ++ "timeout") }, 1) :=
  (resumable_upload_warning_and_structured (fun _ => .raises "timeout")).1
    "abc" "resp" "timeout" [] 0 rfl

/-! ### Theorems for video-URL extraction -/

/-- If `"http"` does not occur in `t`, Python's `t.replace('http','https')`
leaves `t` unchanged. -/
theorem replaceHttp_not_contains (t : List Char) (h : containsHttp t = false) :
    replaceHttp t = t := by
  induction t using replaceHttp.induct with
  | case1 rest ih => simp [containsHttp] at h
  | case2 c rest hne ih =>
    have h2 : containsHttp (c :: rest) = containsHttp rest := by
      rw [containsHttp]
      exact hne
    have r2 : replaceHttp (c :: rest) = c :: replaceHttp rest := by
      rw [replaceHttp]
      exact hne
    rw [h2] at h
    rw [r2, ih h]
  | case3 => rfl

/-- C5, counterexample.  The claim says the first `url_list` entry is returned
with only its scheme forced to `https`, "leaving the rest of the URL
unchanged".  The code calls `url.replace('http', 'https')`, which rewrites
every occurrence: on the entry `"http://a/http"` it produces
`"https://a/https"`, not `"https://a/http"`. -/
theorem extract_video_url_rest_unchanged_counterexample :
    extract_video_url ⟨some ⟨some ⟨some ["http://a/http".toList]⟩⟩⟩ =
      some ("https://a/https".toList) ∧
    "https://a/https".toList ≠ "https://a/http".toList := by
  constructor
  · decide
  · decide

/-- C5, amended: for a feed item with a non-empty `video.play_addr.url_list`,
extraction returns the first entry unchanged when it already starts with
`https`, and otherwise returns it with every occurrence of the substring
`"http"` replaced by `"https"` — in particular, when `"http"` occurs only as
the leading scheme, the scheme becomes `https` and the rest is unchanged.  Any
structural miss (missing `video`, `play_addr` or `url_list` key, or an empty
list) yields no URL for that item, and such an item is skipped without
aborting the rest of the page. -/
theorem extract_video_url_amended :
    (∀ v : AwemeItem, v.video? = none → extract_video_url v = none) ∧
    (∀ (v : AwemeItem) vi, v.video? = some vi → vi.play_addr? = none →
      extract_video_url v = none) ∧
    (∀ (v : AwemeItem) vi pa, v.video? = some vi → vi.play_addr? = some pa →
      (pa.url_list? = none ∨ pa.url_list? = some []) → extract_video_url v = none) ∧
    (∀ (v : AwemeItem) vi pa url tl, v.video? = some vi → vi.play_addr? = some pa →
      pa.url_list? = some (url :: tl) →
      extract_video_url v =
        some (if startsWithHttps url then url else replaceHttp url)) ∧
    (∀ t, containsHttp t = false →
      replaceHttp ("http".toList ++ t) = "https".toList ++ t) ∧
    (∀ (pre post : List AwemeItem) (v : AwemeItem), extract_video_url v = none →
      (pre ++ v :: post).filterMap extract_video_url =
        pre.filterMap extract_video_url ++ post.filterMap extract_video_url) := by
  refine ⟨?_, ?_, ?_, ?_, ?_, ?_⟩
  · intro v h
    simp [extract_video_url, h]
  · intro v vi h1 h2
    simp [extract_video_url, h1, h2]
  · intro v vi pa h1 h2 h3
    rcases h3 with h3 | h3 <;> simp [extract_video_url, h1, h2, h3]
  · intro v vi pa url tl h1 h2 h3
    simp [extract_video_url, h1, h2, h3]
  · intro t ht
    have hshape : "http".toList ++ t = 'h' :: 't' :: 't' :: 'p' :: t := rfl
    rw [hshape, replaceHttp, replaceHttp_not_contains t ht]
    rfl
  · intro pre post v h
    simp [List.filterMap_append, List.filterMap_cons, h]

/-- Witness for C5 (amended) at concrete inputs: an item whose first entry is
`"http://x"` yields that entry with every `"http"` replaced, a missing `video`
key yields no URL, and the bad item does not abort the page. -/
theorem extract_video_url_amended_witness :
    extract_video_url ⟨some ⟨some ⟨some ["http://x".toList]⟩⟩⟩ =
      some (if startsWithHttps "http://x".toList then "http://x".toList
            else replaceHttp "http://x".toList) ∧
    extract_video_url ⟨none⟩ = none ∧
    replaceHttp ("http".toList ++ "://x".toList) = "https".toList ++ "://x".toList ∧
    ([⟨none⟩, (⟨some ⟨some ⟨some ["http://x".toList]⟩⟩⟩ : AwemeItem)].filterMap
        extract_video_url =
      List.filterMap extract_video_url ([] : List AwemeItem) ++
        [(⟨some ⟨some ⟨some ["http://x".toList]⟩⟩⟩ : AwemeItem)].filterMap
          extract_video_url) :=
  ⟨extract_video_url_amended.2.2.2.1 _ _ _ _ _ rfl rfl rfl,
   extract_video_url_amended.1 ⟨none⟩ rfl,
   extract_video_url_amended.2.2.2.2.1 "://x".toList (by decide),
   extract_video_url_amended.2.2.2.2.2 [] _ ⟨none⟩
     (extract_video_url_amended.1 ⟨none⟩ rfl)⟩

/-! ### Theorems for feed pagination -/

/-- The fetch loop never makes more than `6 - page` fetches from page counter
`page`. -/
theorem analyzeLoop_count_le (fetch : Nat → Option ApiResponse)
    (extract : AwemeItem → Option (List Char)) (page cursor : Nat)
    (acc : List (List Char)) :
    (analyzeLoop fetch extract page cursor acc).1 ≤ 6 - page := by
  induction page, cursor, acc using analyzeLoop.induct fetch extract with
  | case1 page cursor acc hp hf =>
    rw [analyzeLoop, dif_pos hp, hf]
    simpa using by omega
  | case2 page cursor acc hp data hf hl =>
    rw [analyzeLoop, dif_pos hp, hf]
    simp only [hl]
    simpa using by omega
  | case3 page cursor acc hp data hf lst hl acc2 hmore ih =>
    rw [analyzeLoop, dif_pos hp, hf]
    simp only [hl, hmore, if_true]
    simp only [acc2] at ih ⊢
    omega
  | case4 page cursor acc hp data hf lst hl hmore =>
    rw [analyzeLoop, dif_pos hp, hf]
    simp only [hl, Bool.not_eq_true] at *
    simp [hmore]
    omega
  | case5 page cursor acc hp =>
    rw [analyzeLoop, dif_neg hp]
    simp

/-- Against a server that always claims more pages, the loop at page counter
`6 - k` makes exactly `k` more fetches. -/
theorem analyzeLoop_always_more (fetch : Nat → Option ApiResponse)
    (extract : AwemeItem → Option (List Char))
    (hm : ∀ c, ∃ r, fetch c = some r ∧ r.has_more = true ∧ ∃ l, r.aweme_list? = some l) :
    ∀ k, k ≤ 5 → ∀ cursor acc, (analyzeLoop fetch extract (6 - k) cursor acc).1 = k := by
  intro k
  induction k with
  | zero =>
    intro _ cursor acc
    rw [analyzeLoop, dif_neg (by omega)]
  | succ k ih =>
    intro hk cursor acc
    obtain ⟨r, hf, hmore, l, hl⟩ := hm cursor
    rw [analyzeLoop, dif_pos (by omega), hf]
    simp only [hl, hmore, if_true]
    have h6 : 6 - (k + 1) + 1 = 6 - k := by omega
    rw [h6, ih (by omega)]

/-- C4: the `analyze_url` fetch phase starts at page 1 with cursor 0 and never
fetches more than 5 pages; against a server that always claims more pages it
fetches exactly 5; and it stops after the current fetch when the response is
missing/falsy, when the response lacks the `aweme_list` key, or when
`has_more` is false. -/
theorem analyze_url_fetches_at_most_five_pages (fetch : Nat → Option ApiResponse)
    (extract : AwemeItem → Option (List Char)) :
    (analyze_url_pages fetch extract).1 ≤ 5 ∧
    ((∀ c, ∃ r, fetch c = some r ∧ r.has_more = true ∧ ∃ l, r.aweme_list? = some l) →
      (analyze_url_pages fetch extract).1 = 5) ∧
    (∀ page cursor acc, page ≤ 5 → fetch cursor = none →
      analyzeLoop fetch extract page cursor acc = (1, acc)) ∧
    (∀ page cursor acc data, page ≤ 5 → fetch cursor = some data →
      data.aweme_list? = none → analyzeLoop fetch extract page cursor acc = (1, acc)) ∧
    (∀ page cursor acc data lst, page ≤ 5 → fetch cursor = some data →
      data.aweme_list? = some lst → data.has_more = false →
      analyzeLoop fetch extract page cursor acc = (1, acc ++ lst.filterMap extract)) := by
  refine ⟨?_, ?_, ?_, ?_, ?_⟩
  · exact analyzeLoop_count_le fetch extract 1 0 []
  · intro hm
    exact analyzeLoop_always_more fetch extract hm 5 (by omega) 0 []
  · intro page cursor acc hp hf
    rw [analyzeLoop, dif_pos hp, hf]
  · intro page cursor acc data hp hf hl
    rw [analyzeLoop, dif_pos hp, hf]
    simp [hl]
  · intro page cursor acc data lst hp hf hl hmore
    rw [analyzeLoop, dif_pos hp, hf]
    simp [hl, hmore]

/-- Witness for C4 at concrete inputs: a server that always claims more pages
is fetched exactly 5 times, and a server whose first response is missing stops
after one fetch. -/
theorem analyze_url_fetches_at_most_five_pages_witness :
    (analyze_url_pages (fun c => some ⟨some [], true, c + 1⟩) (fun _ => none)).1 = 5 ∧
    analyzeLoop (fun _ => none) (fun _ => none) 1 0 [] = (1, []) := by
  constructor
  · exact (analyze_url_fetches_at_most_five_pages
      (fun c => some ⟨some [], true, c + 1⟩) (fun _ => none)).2.1
      (fun c => ⟨⟨some [], true, c + 1⟩, rfl, rfl, [], rfl⟩)
  · exact (analyze_url_fetches_at_most_five_pages (fun _ => none)
      (fun _ => none)).2.2.1 1 0 [] (by omega) rfl

/-! ### Theorems for batch download -/

/-- What the download loop computes, in closed form: starting at index `i` it
visits every queued URL, records one outcome per item in traversal order, and
counts successes and failures. -/
theorem downloadLoop_spec (transport : Nat → TransportOutcome)
    (urls : List String) (i : Nat) :
    downloadLoop transport urls i =
      (((List.range' i urls.length).filter
          (fun j => download_single_video (transport j))).length,
       ((List.range' i urls.length).filter
          (fun j => !download_single_video (transport j))).length,
       (List.range' i urls.length).map
          (fun j => (j, download_single_video (transport j)))) := by
  induction urls generalizing i with
  | nil => rfl
  | cons u rest ih =>
    rw [downloadLoop, ih]
    simp only [List.length_cons, List.range'_succ, List.filter_cons, List.map_cons]
    by_cases h : download_single_video (transport i) <;> simp [h]

/-- C6: in a batch of `N` URLs where the transport raises for item `k` alone
(and every other item downloads with status 200), `download_videos` still
attempts and records an outcome for all `N` items in discovery order, counts
`N - 1` successes and exactly 1 failure, and the one recorded failure is
attributable to item `k` alone. -/
theorem download_batch_isolates_failure (transport : Nat → TransportOutcome)
    (urls : List String) (k : Nat) (msg : String)
    (hk : k < urls.length)
    (hfail : transport k = .raises msg)
    (hok : ∀ i, i < urls.length → i ≠ k → transport i = .ok 200) :
    download_videos transport urls =
      (urls.length - 1, 1, (List.range urls.length).map (fun j => (j, j != k))) ∧
    ((List.range urls.length).map (fun j => (j, j != k))).map Prod.fst =
      List.range urls.length ∧
    (((List.range urls.length).map (fun j => (j, j != k))).filter
        (fun o => !o.2)).map Prod.fst = [k] := by
  have hpt : ∀ j ∈ List.range urls.length,
      download_single_video (transport j) = (j != k) := by
    intro j hj
    rw [List.mem_range] at hj
    by_cases hjk : j = k
    · subst hjk
      rw [hfail]
      simp [download_single_video]
    · rw [hok j hj hjk]
      simp [download_single_video, hjk]
  have hcount : List.count k (List.range urls.length) = 1 := by
    rw [List.count_eq_one_of_mem (List.nodup_range _)]
    simpa using hk
  have hfilter_eq : (List.range urls.length).filter (fun j => !(j != k)) = [k] := by
    have : (fun j : Nat => !(j != k)) = (fun j : Nat => j == k) := by
      funext j
      simp [bne]
    rw [this, List.filter_beq, hcount]
    rfl
  have hflen : ((List.range urls.length).filter
      (fun j => !download_single_video (transport j))).length = 1 := by
    rw [List.filter_congr (fun j hj => by rw [hpt j hj]), hfilter_eq]
    rfl
  have hslen : ((List.range urls.length).filter
      (fun j => download_single_video (transport j))).length = urls.length - 1 := by
    have htot := List.length_eq_length_filter_add
      (l := List.range urls.length) (fun j => download_single_video (transport j))
    rw [List.length_range] at htot
    omega
  refine ⟨?_, ?_, ?_⟩
  · rw [download_videos, downloadLoop_spec, ← List.range_eq_range']
    rw [hslen, hflen, List.map_congr_left (fun j hj => by rw [hpt j hj])]
  · rw [List.map_map]
    have : (Prod.fst ∘ fun j : Nat => (j, j != k)) = id := by
      funext j
      rfl
    rw [this, List.map_id]
  · have hcomp : ((fun o : Nat × Bool => !o.2) ∘ fun j : Nat => (j, j != k)) =
        (fun j : Nat => !(j != k)) := by
      funext j
      rfl
    rw [List.filter_map, hcomp, hfilter_eq]
    simp

/-- Witness for C6 at a concrete batch: 3 URLs where item 1's transport
raises; all 3 items get outcomes in order, with 2 successes and the single
failure at item 1. -/
theorem download_batch_isolates_failure_witness :
    download_videos
      (fun i => if i = 1 then .raises "ConnectionError" else .ok 200)
      ["u0", "u1", "u2"] =
      (2, 1, [(0, true), (1, false), (2, true)]) := by
  have h := download_batch_isolates_failure
    (fun i => if i = 1 then .raises "ConnectionError" else .ok 200)
    ["u0", "u1", "u2"] 1 "ConnectionError" (by simp)
    (by simp)
    (by
      intro i hi hik
      show (if i = 1 then TransportOutcome.raises "ConnectionError"
            else TransportOutcome.ok 200) = TransportOutcome.ok 200
      rw [if_neg hik])
  rw [h.1]
  rfl

/-! ### Theorems for today's uploads -/

/-- The walk never inspects more entries than the page holds. -/
theorem todaysWalk_checked_le (resolver : String → Option VideoStatusInfo)
    (s t : Int) (entries : List PlaylistEntry) :
    (todaysWalk resolver s t entries).1 ≤ entries.length := by
  induction entries using todaysWalk.induct resolver s t with
  | case1 => simp [todaysWalk]
  | case2 e rest hp ih =>
    simp only [todaysWalk, hp, List.length_cons]
    omega
  | case3 e rest p hp hin info hres ih =>
    simp only [todaysWalk, hp, List.length_cons]
    rw [if_pos hin, hres]
    simpa using ih
  | case4 e rest p hp hin hres ih =>
    simp only [todaysWalk, hp, List.length_cons]
    rw [if_pos hin, hres]
    simpa using ih
  | case5 e rest p hp hin hold =>
    simp only [todaysWalk, hp, List.length_cons]
    rw [if_neg hin, if_pos hold]
    simp
  | case6 e rest p hp hin hnotold ih =>
    simp only [todaysWalk, hp, List.length_cons]
    rw [if_neg hin, if_neg hnotold]
    simpa using ih

/-- Every per-video resolver call is made for an entry of the page whose
publish timestamp lies inside today's window. -/
theorem todaysWalk_resolved_in_window (resolver : String → Option VideoStatusInfo)
    (s t : Int) (entries : List PlaylistEntry) :
    ∀ id ∈ (todaysWalk resolver s t entries).2.1, ∃ e ∈ entries, e.videoId = id ∧
      ∃ p, e.publishedAt? = some p ∧ s ≤ p ∧ p ≤ t := by
  induction entries using todaysWalk.induct resolver s t with
  | case1 => simp [todaysWalk]
  | case2 e rest hp ih =>
    intro id hid
    simp only [todaysWalk, hp] at hid
    obtain ⟨e', he', rest'⟩ := ih id hid
    exact ⟨e', List.mem_cons_of_mem _ he', rest'⟩
  | case3 e rest p hp hin info hres ih =>
    intro id hid
    simp only [todaysWalk, hp] at hid
    rw [if_pos hin, hres] at hid
    simp only [List.mem_cons] at hid
    rcases hid with rfl | hid
    · exact ⟨e, List.mem_cons_self e rest, rfl, p, hp, hin.1, hin.2⟩
    · obtain ⟨e', he', rest'⟩ := ih id hid
      exact ⟨e', List.mem_cons_of_mem _ he', rest'⟩
  | case4 e rest p hp hin hres ih =>
    intro id hid
    simp only [todaysWalk, hp] at hid
    rw [if_pos hin, hres] at hid
    simp only [List.mem_cons] at hid
    rcases hid with rfl | hid
    · exact ⟨e, List.mem_cons_self e rest, rfl, p, hp, hin.1, hin.2⟩
    · obtain ⟨e', he', rest'⟩ := ih id hid
      exact ⟨e', List.mem_cons_of_mem _ he', rest'⟩
  | case5 e rest p hp hin hold =>
    intro id hid
    simp only [todaysWalk, hp] at hid
    rw [if_neg hin, if_pos hold] at hid
    simp at hid
  | case6 e rest p hp hin hnotold ih =>
    intro id hid
    simp only [todaysWalk, hp] at hid
    rw [if_neg hin, if_neg hnotold] at hid
    obtain ⟨e', he', rest'⟩ := ih id hid
    exact ⟨e', List.mem_cons_of_mem _ he', rest'⟩

/-- C2: the today's-uploads walk inspects at most as many entries as the page
holds — so at most 50, since the playlist page is requested with
`maxResults=50`; the per-video resolver is invoked only for entries published
inside today's UTC window (in particular never for entries older than the
current UTC day); and an entry published before the start of today's UTC day
stops the traversal immediately, regardless of what follows it on the page. -/
theorem get_todays_uploads_traversal (resolver : String → Option VideoStatusInfo)
    (s t : Int) (entries : List PlaylistEntry) :
    (todaysWalk resolver s t entries).1 ≤ entries.length ∧
    (entries.length ≤ 50 → (todaysWalk resolver s t entries).1 ≤ 50) ∧
    (∀ id ∈ (todaysWalk resolver s t entries).2.1, ∃ e ∈ entries, e.videoId = id ∧
      ∃ p, e.publishedAt? = some p ∧ s ≤ p ∧ p ≤ t) ∧
    (∀ (e : PlaylistEntry) (rest : List PlaylistEntry) (p : Int),
      e.publishedAt? = some p → p < s →
      todaysWalk resolver s t (e :: rest) = (1, [], [])) := by
  refine ⟨todaysWalk_checked_le resolver s t entries, ?_,
    todaysWalk_resolved_in_window resolver s t entries, ?_⟩
  · intro h50
    exact le_trans (todaysWalk_checked_le resolver s t entries) h50
  · intro e rest p hp hold
    simp only [todaysWalk, hp]
    rw [if_neg (by omega), if_pos hold]

/-- Witness for C2 at concrete inputs: a page whose first entry is already
older than today stops after inspecting that one entry with no resolver call,
and a 2-entry page yields at most 50 inspections. -/
theorem get_todays_uploads_traversal_witness :
    todaysWalk (fun _ => none) 0 86399
      [⟨"old", some (-5)⟩, ⟨"todayish", some 10⟩] = (1, [], []) ∧
    (todaysWalk (fun _ => none) 0 86399
      [⟨"old", some (-5)⟩, ⟨"todayish", some 10⟩]).1 ≤ 50 := by
  constructor
  · exact (get_todays_uploads_traversal (fun _ => none) 0 86399 []).2.2.2
      ⟨"old", some (-5)⟩ [⟨"todayish", some 10⟩] (-5) rfl (by omega)
  · exact (get_todays_uploads_traversal (fun _ => none) 0 86399
      [⟨"old", some (-5)⟩, ⟨"todayish", some 10⟩]).2.1 (by simp)

/-! ### Theorems for path resolution -/

/-- The shared tail of `get_full_video_path` and the `upload_selected_videos`
resolver (download folder, then absolute path) as a first-existing scan. -/
theorem tail_resolve_eq (fs : FileSystem) (dl fn : String) :
    (if path_exists fs (joinPath dl fn) then some (joinPath dl fn)
     else if isAbs fn && path_exists fs fn then some fn else none) =
    firstExisting fs ([joinPath dl fn] ++ (if isAbs fn then [fn] else [])) := by
  by_cases h1 : path_exists fs (joinPath dl fn)
  · simp [firstExisting, h1]
  · by_cases h2 : isAbs fn
    · simp [firstExisting, h1, h2]
    · simp [firstExisting, h1, h2]

/-- C9, counterexample.  The claim says path resolution tries the explicitly
chosen folder, the download folder, well-known user folders, and the absolute
path, in that order.  With the file present only in the well-known folder
`~/Downloads`, the claimed order finds it, but both `get_full_video_path` and
the `upload_selected_videos` resolver return nothing — neither ever looks in
the well-known user folders. -/
theorem path_resolution_order_counterexample :
    resolve_per_claim ["/home/u/Downloads/a.mp4"] (some "/cv") "/dl" "/home/u" "a.mp4" =
      some "/home/u/Downloads/a.mp4" ∧
    get_full_video_path ["/home/u/Downloads/a.mp4"] (some "/cv") "/dl" "a.mp4" = none ∧
    upload_selected_resolve ["/home/u/Downloads/a.mp4"] (some "/cv") "/dl" "a.mp4" =
      none := by
  refine ⟨by decide, by decide, by decide⟩

/-- C9, amended: `get_full_video_path` and the `upload_selected_videos`
resolver both return the first existing path among: the explicitly chosen
folder joined with the filename, the download folder joined with the
filename, and (only when the filename is absolute) the filename itself — they
never consult well-known user folders.  The `upload_as_shorts_thread`
resolver returns the first existing path among: the explicitly chosen folder
joined with the filename (only when that folder itself exists), the download
folder joined with the filename, and the well-known locations `~/Downloads`,
`~/Videos` and `"."` joined with the filename — an absolute filename is still
found there because joining replaces the folder with an absolute second
argument.  A candidate none of the locations yields is reported as skipped
(`none`), never silently dropped. -/
theorem path_resolution_order_amended (fs : FileSystem) (cvf : Option String)
    (dl home fn : String) :
    get_full_video_path fs cvf dl fn =
      firstExisting fs
        ((match cvf with | some cf => [joinPath cf fn] | none => []) ++
         [joinPath dl fn] ++ (if isAbs fn then [fn] else [])) ∧
    upload_selected_resolve fs cvf dl fn = get_full_video_path fs cvf dl fn ∧
    shorts_resolve fs cvf dl home fn =
      firstExisting fs
        ((match cvf with
          | some cf => if path_exists fs cf then [joinPath cf fn] else []
          | none => []) ++
         [joinPath dl fn, joinPath (home ++ "/Downloads") fn,
          joinPath (home ++ "/Videos") fn, joinPath "." fn]) := by
  refine ⟨?_, rfl, ?_⟩
  · cases cvf with
    | none =>
      show (if path_exists fs (joinPath dl fn) then some (joinPath dl fn)
            else if isAbs fn && path_exists fs fn then some fn else none) = _
      rw [tail_resolve_eq]
      simp
    | some cf =>
      by_cases hc : path_exists fs (joinPath cf fn)
      · simp [get_full_video_path, firstExisting, hc]
      · have : get_full_video_path fs (some cf) dl fn =
            (if path_exists fs (joinPath dl fn) then some (joinPath dl fn)
             else if isAbs fn && path_exists fs fn then some fn else none) := by
          simp [get_full_video_path, hc]
        rw [this, tail_resolve_eq]
        simp [firstExisting, hc]
  · cases cvf with
    | none =>
      by_cases hd : path_exists fs (joinPath dl fn)
      · simp [shorts_resolve, firstExisting, hd]
      · simp [shorts_resolve, firstExisting, hd]
    | some cf =>
      by_cases hcf : path_exists fs cf
      · by_cases hc : path_exists fs (joinPath cf fn)
        · simp [shorts_resolve, firstExisting, hcf, hc]
        · by_cases hd : path_exists fs (joinPath dl fn)
          · simp [shorts_resolve, firstExisting, hcf, hc, hd]
          · simp [shorts_resolve, firstExisting, hcf, hc, hd]
      · by_cases hd : path_exists fs (joinPath dl fn)
        · simp [shorts_resolve, firstExisting, hcf, hd]
        · simp [shorts_resolve, firstExisting, hcf, hd]

/-! ### Theorems for cURL parsing -/

theorem takeWhile_all_append {p : Char → Bool} (u : List Char) (a : Char) (r : List Char)
    (hu : ∀ c ∈ u, p c = true) (ha : p a = false) :
    (u ++ a :: r).takeWhile p = u := by
  induction u with
  | nil => simp [List.takeWhile, ha]
  | cons c tl ih =>
    have hc : p c = true := hu c (by simp)
    simp only [List.cons_append, List.takeWhile_cons, hc]
    rw [ih (fun x hx => hu x (by simp [hx]))]
    simp

/-- For a cURL command starting with `curl ` and a quoted URL (the URL itself
containing no quote character), the quoted-URL regex search recovers exactly
the URL. -/
theorem url_recovered (url rest : List Char) (hne : url ≠ [])
    (hq : ∀ c ∈ url, isQuote c = false) :
    extract_curl_url ('c' :: 'u' :: 'r' :: 'l' :: ' ' :: '\'' :: (url ++ '\'' :: rest)) =
      some url := by
  have htw : (url ++ '\'' :: rest).takeWhile (fun c => !isQuote c) = url := by
    apply takeWhile_all_append
    · intro c hc
      simp [hq c hc]
    · simp [isQuote]
  have hdrop : (url ++ '\'' :: rest).drop url.length = '\'' :: rest :=
    List.drop_left url ('\'' :: rest)
  have hmatch : matchQuotedAt
      ('c' :: 'u' :: 'r' :: 'l' :: ' ' :: '\'' :: (url ++ '\'' :: rest)) = some url := by
    rw [matchQuotedAt]
    rw [if_pos (by simp [isQuote])]
    simp only [htw, hdrop]
    rw [if_pos ⟨hne, by simp⟩]
  rw [extract_curl_url, searchQuoted, hmatch]

theorem lookup_map_self (d : List (String × String)) (k v : String) :
    lookupHeader (d.map (fun kv => if kv.1 == k then (k, v) else kv)) k =
      if d.any (fun kv => kv.1 == k) then some v else none := by
  induction d with
  | nil => rfl
  | cons kv tl ih =>
    by_cases hk : (kv.1 == k) = true
    · simp only [List.map_cons, hk, if_true, List.any_cons, Bool.true_or,
        lookupHeader, List.find?_cons, beq_self_eq_true]
      rfl
    · rw [Bool.not_eq_true] at hk
      simp only [List.map_cons, hk, Bool.false_eq_true, if_false, List.any_cons,
        Bool.false_or, lookupHeader, List.find?_cons, hk]
      exact ih

theorem lookup_append_single_self (d : List (String × String)) (k v : String)
    (habs : ∀ kv ∈ d, (kv.1 == k) = false) :
    lookupHeader (d ++ [(k, v)]) k = some v := by
  induction d with
  | nil => simp [lookupHeader, List.find?]
  | cons kv tl ih =>
    have hk : (kv.1 == k) = false := habs kv (by simp)
    simp only [List.cons_append, lookupHeader, List.find?_cons, hk]
    exact ih (fun x hx => habs x (by simp [hx]))

/-- Writing key `k` always makes a later read of `k` see the new value. -/
theorem lookup_dictInsert_self (d : List (String × String)) (k v : String) :
    lookupHeader (dictInsert d k v) k = some v := by
  by_cases hany : (d.any (fun kv => kv.1 == k)) = true
  · rw [dictInsert, if_pos hany, lookup_map_self, if_pos hany]
  · rw [dictInsert, if_neg hany]
    apply lookup_append_single_self
    intro kv hkv
    rw [List.any_eq_true] at hany
    push_neg at hany
    simpa using hany kv hkv

theorem lookup_map_other (d : List (String × String)) (k k' v : String) (hne : k' ≠ k) :
    lookupHeader (d.map (fun kv => if kv.1 == k' then (k', v) else kv)) k =
      lookupHeader d k := by
  induction d with
  | nil => rfl
  | cons kv tl ih =>
    by_cases hk : (kv.1 == k') = true
    · have hkeq : kv.1 = k' := by simpa using hk
      have hkk : (kv.1 == k) = false := by simp [hkeq, hne]
      have hk'k : (k' == k) = false := by simp [hne]
      simp only [List.map_cons, hk, if_true, lookupHeader, List.find?_cons, hk'k, hkk]
      exact ih
    · rw [Bool.not_eq_true] at hk
      simp only [List.map_cons, hk, Bool.false_eq_true, if_false, lookupHeader,
        List.find?_cons]
      cases hkk : (kv.1 == k) with
      | true => rfl
      | false => exact ih

theorem lookup_append_single_other (d : List (String × String)) (k k' v : String)
    (hne : k' ≠ k) : lookupHeader (d ++ [(k', v)]) k = lookupHeader d k := by
  induction d with
  | nil =>
    simp only [List.nil_append, lookupHeader, List.find?]
    have : (k' == k) = false := by simp [hne]
    simp [this]
  | cons kv tl ih =>
    simp only [List.cons_append, lookupHeader, List.find?_cons]
    cases hkk : (kv.1 == k) with
    | true => rfl
    | false => exact ih

/-- Writing any other key leaves a read of `k` unchanged. -/
theorem lookup_dictInsert_other (d : List (String × String)) (k k' v : String)
    (hne : k' ≠ k) : lookupHeader (dictInsert d k' v) k = lookupHeader d k := by
  by_cases hany : (d.any (fun kv => kv.1 == k')) = true
  · rw [dictInsert, if_pos hany, lookup_map_other d k k' v hne]
  · rw [dictInsert, if_neg hany, lookup_append_single_other d k k' v hne]

theorem lookup_foldl_absent (h : List (String × String)) (k : String)
    (habs : ∀ kv ∈ h, kv.1 ≠ k) :
    ∀ d, lookupHeader (h.foldl (fun d kv => dictInsert d kv.1 kv.2) d) k =
      lookupHeader d k := by
  induction h with
  | nil => intro d; rfl
  | cons kv tl ih =>
    intro d
    rw [List.foldl_cons, ih (fun x hx => habs x (by simp [hx])),
      lookup_dictInsert_other d k kv.1 kv.2 (habs kv (by simp))]

theorem any_key_iff (d : List (String × String)) (k : String) :
    (d.any (fun kv => kv.1 == k)) = true ↔ k ∈ d.map Prod.fst := by
  rw [List.any_eq_true]
  simp only [List.mem_map, beq_iff_eq]

theorem keys_dictInsert (d : List (String × String)) (k v : String) :
    (dictInsert d k v).map Prod.fst =
      if d.any (fun kv => kv.1 == k) then d.map Prod.fst
      else d.map Prod.fst ++ [k] := by
  by_cases hany : (d.any (fun kv => kv.1 == k)) = true
  · rw [dictInsert, if_pos hany, if_pos hany, List.map_map]
    apply List.map_congr_left
    intro kv _
    by_cases hk : (kv.1 == k) = true
    · have : kv.1 = k := by simpa using hk
      simp [Function.comp, hk, this]
    · rw [Bool.not_eq_true] at hk
      simp [Function.comp, hk]
  · rw [dictInsert, if_neg hany, if_neg hany, List.map_append]
    rfl

theorem mem_keys_dictInsert (d : List (String × String)) (k v x : String) :
    x ∈ (dictInsert d k v).map Prod.fst ↔ x ∈ d.map Prod.fst ∨ x = k := by
  rw [keys_dictInsert]
  by_cases hany : (d.any (fun kv => kv.1 == k)) = true
  · rw [if_pos hany]
    have hk : k ∈ d.map Prod.fst := (any_key_iff d k).1 hany
    constructor
    · exact Or.inl
    · rintro (hx | rfl)
      · exact hx
      · exact hk
  · rw [if_neg hany]
    simp

theorem nodup_keys_dictInsert (d : List (String × String)) (k v : String)
    (hnod : (d.map Prod.fst).Nodup) : ((dictInsert d k v).map Prod.fst).Nodup := by
  rw [keys_dictInsert]
  by_cases hany : (d.any (fun kv => kv.1 == k)) = true
  · rw [if_pos hany]
    exact hnod
  · rw [if_neg hany]
    have hk : k ∉ d.map Prod.fst := fun hmem => hany ((any_key_iff d k).2 hmem)
    rw [List.nodup_append]
    refine ⟨hnod, List.nodup_singleton k, ?_⟩
    intro a ha hb
    simp only [List.mem_singleton] at hb
    subst hb
    exact hk ha

theorem nodup_keys_foldl (h : List (String × String)) :
    ∀ d, (d.map Prod.fst).Nodup →
      ((h.foldl (fun d kv => dictInsert d kv.1 kv.2) d).map Prod.fst).Nodup := by
  induction h with
  | nil => intro d hd; exact hd
  | cons kv tl ih =>
    intro d hd
    rw [List.foldl_cons]
    exact ih _ (nodup_keys_dictInsert d kv.1 kv.2 hd)

theorem mem_keys_foldl (h : List (String × String)) (x : String) :
    ∀ d, (x ∈ (h.foldl (fun d kv => dictInsert d kv.1 kv.2) d).map Prod.fst ↔
      x ∈ d.map Prod.fst ∨ x ∈ h.map Prod.fst) := by
  induction h with
  | nil => intro d; simp
  | cons kv tl ih =>
    intro d
    rw [List.foldl_cons, ih, mem_keys_dictInsert]
    simp only [List.map_cons, List.mem_cons]
    tauto

/-- The header dict built from the `-H` matches has one entry per distinct
key. -/
theorem parse_headers_size (h : List (String × String)) :
    (parse_curl_headers h none).length = (h.map Prod.fst).dedup.length := by
  have hL : parse_curl_headers h none =
      h.foldl (fun d kv => dictInsert d kv.1 kv.2) [] := rfl
  set L := h.foldl (fun d kv => dictInsert d kv.1 kv.2) [] with hLdef
  have hnod : (L.map Prod.fst).Nodup := nodup_keys_foldl h [] (by simp)
  have hmem : ∀ x, x ∈ L.map Prod.fst ↔ x ∈ h.map Prod.fst := by
    intro x
    rw [hLdef, mem_keys_foldl]
    simp
  have hfin : (L.map Prod.fst).toFinset = (h.map Prod.fst).dedup.toFinset := by
    ext x
    rw [List.mem_toFinset, List.mem_toFinset, List.mem_dedup]
    exact hmem x
  have h1 : (L.map Prod.fst).toFinset.card = (L.map Prod.fst).length :=
    List.toFinset_card_of_nodup hnod
  have h2 : ((h.map Prod.fst).dedup).toFinset.card = (h.map Prod.fst).dedup.length :=
    List.toFinset_card_of_nodup (List.nodup_dedup _)
  rw [hL, ← List.length_map L Prod.fst]
  rw [← h1, hfin, h2]

/-- C3, counterexample.  The claim says the header map's size equals the
number of matched `-H` flags.  Two matched flags with the same key produce a
map of size 1, not 2: later duplicates overwrite, so the size is the number
of distinct keys. -/
theorem parse_curl_header_count_counterexample :
    parse_curl_headers [("A", "1"), ("A", "2")] none = [("A", "2")] ∧
    (parse_curl_headers [("A", "1"), ("A", "2")] none).length ≠ 2 := by
  refine ⟨by decide, by decide⟩

/-- C3, amended: for a cURL command with a quoted URL (no quote characters
inside), parsing recovers the exact URL; the header map built from the `-H`
matches has size equal to the number of *distinct* matched keys, with a later
duplicate key overwriting the earlier value (the last value for a key is the
one read back); and a `-b` cookie match is written to the `Cookie` header,
overwriting any `Cookie` extracted from `-H`. -/
theorem parse_curl_amended :
    (∀ (url rest : List Char), url ≠ [] → (∀ c ∈ url, isQuote c = false) →
      extract_curl_url
        ('c' :: 'u' :: 'r' :: 'l' :: ' ' :: '\'' :: (url ++ '\'' :: rest)) =
        some url) ∧
    (∀ h : List (String × String),
      (parse_curl_headers h none).length = (h.map Prod.fst).dedup.length) ∧
    (∀ (h1 h2 : List (String × String)) (k v : String), (∀ kv ∈ h2, kv.1 ≠ k) →
      lookupHeader (parse_curl_headers (h1 ++ (k, v) :: h2) none) k = some v) ∧
    (∀ (h : List (String × String)) (c : String),
      lookupHeader (parse_curl_headers h (some c)) "Cookie" = some c) := by
  refine ⟨url_recovered, parse_headers_size, ?_, ?_⟩
  · intro h1 h2 k v habs
    show lookupHeader
      ((h1 ++ (k, v) :: h2).foldl (fun d kv => dictInsert d kv.1 kv.2) []) k = some v
    rw [List.foldl_append, List.foldl_cons, lookup_foldl_absent h2 k habs,
      lookup_dictInsert_self]
  · intro h c
    show lookupHeader
      (dictInsert (h.foldl (fun d kv => dictInsert d kv.1 kv.2) []) "Cookie" c)
      "Cookie" = some c
    exact lookup_dictInsert_self _ _ _

/-- Witness for C3 (amended) at concrete inputs: the URL `x` is recovered from
`curl 'x'`, a later duplicate key's value wins, and `-b` overwrites a `Cookie`
header that came from `-H`. -/
theorem parse_curl_amended_witness :
    extract_curl_url
      ('c' :: 'u' :: 'r' :: 'l' :: ' ' :: '\'' :: (['x'] ++ '\'' :: [])) = some ['x'] ∧
    lookupHeader (parse_curl_headers ([("A", "1")] ++ ("A", "2") :: []) none) "A" =
      some "2" ∧
    lookupHeader (parse_curl_headers [("Cookie", "old")] (some "new")) "Cookie" =
      some "new" :=
  ⟨parse_curl_amended.1 ['x'] [] (by decide) (by decide),
   parse_curl_amended.2.2.1 [("A", "1")] [] "A" "2" (by simp),
   parse_curl_amended.2.2.2 [("Cookie", "old")] "new"⟩

/-! ### Theorems for metadata truncation and upload preconditions -/

/-- C7: title/description truncation in `upload_video` is idempotent in the
claimed sense: a title of length ≤ 100 (resp. description of length ≤ 5000) is
returned unchanged, and a string exactly one character over the limit is
truncated to a string at or under the limit that ends in the `"..."` marker. -/
theorem truncation_idempotent_and_marker (t d : List Char) :
    (t.length ≤ 100 → truncate_title t = t) ∧
    (d.length ≤ 5000 → truncate_description d = d) ∧
    (t.length = 101 →
      (truncate_title t).length ≤ 100 ∧ ∃ p, truncate_title t = p ++ "...".toList) ∧
    (d.length = 5001 →
      (truncate_description d).length ≤ 5000 ∧
      ∃ p, truncate_description d = p ++ "...".toList) := by
  refine ⟨?_, ?_, ?_, ?_⟩
  · intro h
    unfold truncate_title
    split
    · omega
    · rfl
  · intro h
    unfold truncate_description
    split
    · omega
    · rfl
  · intro h
    have ht : truncate_title t = t.take 97 ++ "...".toList := by
      unfold truncate_title
      split
      · rfl
      · omega
    refine ⟨?_, t.take 97, ht⟩
    rw [ht]
    simp [List.length_take]
  · intro h
    have hd : truncate_description d = d.take 4997 ++ "...".toList := by
      unfold truncate_description
      split
      · rfl
      · omega
    refine ⟨?_, d.take 4997, hd⟩
    rw [hd]
    simp [List.length_take]

/-- Witness for C7 at concrete inputs: a 3-character title is unchanged, and a
101-character title is truncated to 100 characters ending in the marker. -/
theorem truncation_idempotent_and_marker_witness :
    ((List.replicate 3 'a').length ≤ 100 →
      truncate_title (List.replicate 3 'a') = List.replicate 3 'a') ∧
    (truncate_title (List.replicate 101 'a') = List.replicate 101 'a' → False) := by
  constructor
  · exact (truncation_idempotent_and_marker (List.replicate 3 'a') []).1
  · intro hcontra
    have h := (truncation_idempotent_and_marker (List.replicate 101 'a') []).2.2.1
      (by simp)
    rw [hcontra] at h
    simp at h

/-- C10: `upload_video` raises on its precondition violations (modelled as
`Except.error`): not authenticated raises; a missing file raises a
file-not-found error with the filename in the message; a file strictly larger
than 256 GiB raises; a file of exactly 256 GiB passes all guards and proceeds
to upload (`Except.ok`). -/
theorem upload_video_precondition_checks (auth ex : Bool) (f : String) (n : Nat) :
    (upload_video_checks false ex f n =
      .error (.notAuthenticated "Not authenticated! Call authenticate() first.")) ∧
    (upload_video_checks true false f n =
      .error (.fileNotFound ("Video file '" ++ f ++ "' not found!"))) ∧
    (n > 256 * 1024 * 1024 * 1024 →
      upload_video_checks true true f n = .error .fileTooLarge) ∧
    (upload_video_checks true true f (256 * 1024 * 1024 * 1024) = .ok ()) ∧
    (upload_video_checks auth ex f n = .ok () →
      auth = true ∧ ex = true ∧ n ≤ 256 * 1024 * 1024 * 1024) := by
  refine ⟨rfl, rfl, ?_, ?_, ?_⟩
  · intro h
    unfold upload_video_checks
    simp only [Bool.not_true]
    rw [if_neg (by simp), if_neg (by simp), if_pos h]
  · unfold upload_video_checks
    rw [if_neg (by simp), if_neg (by simp), if_neg (by omega)]
  · intro h
    cases auth with
    | false => simp [upload_video_checks] at h
    | true =>
      cases ex with
      | false => simp [upload_video_checks] at h
      | true =>
        refine ⟨rfl, rfl, ?_⟩
        by_contra hle
        unfold upload_video_checks at h
        rw [if_neg (by simp), if_neg (by simp), if_pos (by omega)] at h
        exact Except.noConfusion h

/-- Witness for C10 at concrete inputs: exactly 256 GiB is accepted, one byte
more is rejected. -/
theorem upload_video_precondition_checks_witness :
    upload_video_checks true true "v.mp4" (256 * 1024 * 1024 * 1024) = .ok () ∧
    upload_video_checks true true "v.mp4" (256 * 1024 * 1024 * 1024 + 1) =
      .error .fileTooLarge := by
  refine ⟨(upload_video_precondition_checks true true "v.mp4" 0).2.2.2.1, ?_⟩
  exact (upload_video_precondition_checks true true "v.mp4"
    (256 * 1024 * 1024 * 1024 + 1)).2.2.1 (by omega)

end DouyinHelper
